import Mathlib

/-!
Verification development for the ddbmap library, a map-like client-side view
of a DynamoDB table.  The definitions below are a shallow embedding of the
library's data model and operations: items are finite maps from attribute
names to attribute values, remote calls are modelled by explicit response
values (or response traces for looping operations), and the conditional-put
semantics of the remote store is modelled from the external-interface
description.  Theorems about the embedding settle the specification claims.
-/

namespace Ddbmap

/-- Attribute values of the DynamoDB type system, as far as this development
needs them: numbers (modelled as integers), strings and booleans. -/
inductive AttrVal where
  | n (v : Int)
  | s (v : String)
  | b (v : Bool)
  deriving DecidableEq

/-- An Item is a map from attribute name to attribute value
(Go: `type Item map[string]dynamodb.AttributeValue`, item.go). -/
def Item : Type := Finmap fun _ : String => AttrVal

instance : DecidableEq Item :=
  inferInstanceAs (DecidableEq (Finmap fun _ : String => AttrVal))

instance : EmptyCollection Item :=
  inferInstanceAs (EmptyCollection (Finmap fun _ : String => AttrVal))

/-- Map lookup, `item[attr]` with its presence bit in Go. -/
def Item.lookup (item : Item) (attr : String) : Option AttrVal :=
  Finmap.lookup attr item

/-- Map update, `item[attr] = v` in Go. -/
def Item.insert (item : Item) (attr : String) (v : AttrVal) : Item :=
  Finmap.insert attr v item

/-- Item.Project (item.go): returns a new item based on this one, but with only
the specified attributes; attributes absent from the item are skipped.  The Go
loop inserts `item[attr]` for each listed attribute that is present; since all
inserted values come from the same source item, the order of insertion does
not change the resulting map. -/
def Item.project (item : Item) : List String → Item
  | [] => ∅
  | attr :: rest =>
    match item.lookup attr with
    | some v => (item.project rest).insert attr v
    | none => item.project rest

/-- Item.Exists (item.go): true if the given attribute exists. -/
def Item.exists (item : Item) (attr : String) : Bool :=
  (item.lookup attr).isSome

/-- TableConfig (tablecfg.go): the data fields of the table configuration that
the modelled operations read.  The Go `time.Duration` is modelled in seconds,
matching its only use `time.Now().Add(d.TimeToLiveDuration).Unix()`. -/
structure TableConfig where
  tableName : String := ""
  hashKeyName : String := ""
  rangeKeyName : String := ""
  versionName : String := ""
  timeToLiveName : String := ""
  timeToLiveDuration : Int := 0
  scanConcurrency : Int := 0
  readWithStrongConsistency : Bool := false
  deriving DecidableEq

/-- TableConfig.Ranged (tablecfg.go): `len(tc.RangeKeyName) > 0`. -/
def TableConfig.Ranged (tc : TableConfig) : Bool :=
  tc.rangeKeyName.length != 0

/-- TableConfig.ToKeyItem (tablecfg.go): an item with only the configured
key(s) copied from the given item. -/
def TableConfig.ToKeyItem (tc : TableConfig) (item : Item) : Item :=
  if tc.Ranged then item.project [tc.hashKeyName, tc.rangeKeyName]
  else item.project [tc.hashKeyName]

/-- Go errors as the library observes them: either an AWS service error
carrying a code (awserr.Error) or any other error value. -/
inductive GoError where
  | aws (code : String) (msg : String)
  | plain (msg : String)
  deriving DecidableEq

/-- getErrCode (log.go): the AWS error code of an error, or "" if the error is
not an awserr.Error. -/
def getErrCode : GoError → String
  | .aws code _ => code
  | .plain _ => ""

/-- Error code of a possibly-nil Go error: a nil error has no code. -/
def getErrCodeOpt : Option GoError → String
  | none => ""
  | some e => getErrCode e

/-- dynamodb.ErrCodeConditionalCheckFailedException. -/
def errCodeConditionalCheckFailed : String := "ConditionalCheckFailedException"

/-- dynamodb.ErrCodeResourceNotFoundException. -/
def errCodeResourceNotFound : String := "ResourceNotFoundException"

/-- errEarlyTermination (dynamomap.go): "Indicates that a range operation
consumer caused an early termination by returning false. Do not return it." -/
def errEarlyTermination : GoError := .plain "ddbmap early termination"

/-- Condition expressions the library builds for conditional puts:
`expression.Name(name).AttributeNotExists()` and
`expression.Name(name).Equal(expression.Value(v))` (dynamomap.go). -/
inductive CondExpr where
  | attrNotExists (name : String)
  | attrEquals (name : String) (v : AttrVal)
  deriving DecidableEq

/-- Modelled from the spec: semantics of a server-side condition expression of
the external remote store, evaluated against the currently stored record for
the key (none when no record exists).  A conditional put is accepted only if
the predicate over the existing item holds; a predicate over an absent
attribute or an absent record makes `attrEquals` fail and `attrNotExists`
succeed. -/
def evalCond : CondExpr → Option Item → Bool
  | .attrNotExists _, none => true
  | .attrNotExists name, some it => (it.lookup name).isNone
  | .attrEquals _ _, none => false
  | .attrEquals name v, some it => it.lookup name == some v

/-- DefaultTimeToLiveName: used if the TTL duration is set but the ttl
attribute name is not. -/
def DefaultTimeToLiveName : String := "TTL"

/-- Attribute name the TTL stamp is written to: the configured name, or
DefaultTimeToLiveName ("TTL") when the configured name is empty (store,
dynamomap.go). -/
def ttlAttributeName (tc : TableConfig) : String :=
  if tc.timeToLiveName = "" then DefaultTimeToLiveName else tc.timeToLiveName

/-- TTL stamping performed by store (dynamomap.go): if TimeToLiveDuration > 0,
the item sent to PutItem gets a numeric attribute holding
`time.Now().Add(d.TimeToLiveDuration).Unix()`, that is `now + duration` in
epoch seconds; otherwise the item is sent unchanged. -/
def stampTTL (tc : TableConfig) (now : Int) (item : Item) : Item :=
  if tc.timeToLiveDuration > 0 then
    item.insert (ttlAttributeName tc) (.n (now + tc.timeToLiveDuration))
  else item

/-- store (dynamomap.go) against a faithful remote holding `state` for the
item's key: the TTL-stamped item is sent as a PutItem with the optional
condition expression; the remote overwrites the record if the condition is
absent or holds, and answers ConditionalCheckFailedException leaving the
record unmodified otherwise.  The result is the new remote state and the
error returned by the put. -/
def storePut (tc : TableConfig) (now : Int) (state : Option Item) (item : Item)
    (cond : Option CondExpr) : Option Item × Option GoError :=
  let sent := stampTTL tc now item
  match cond with
  | none => (some sent, none)
  | some c =>
    if evalCond c state then (some sent, none)
    else (state, some (.aws errCodeConditionalCheckFailed "conditional check failed"))

/-- Condition built by storeItemIfAbsent (dynamomap.go):
`expression.Name(d.HashKeyName).AttributeNotExists()`. -/
def storeIfAbsentCond (tc : TableConfig) : CondExpr :=
  .attrNotExists tc.hashKeyName

/-- Error handling of storeItemIfAbsent (dynamomap.go) applied to the put
response: nil error means stored; a ConditionalCheckFailedException code means
(false, nil); any other error is returned. -/
def storeIfAbsentOutcome (err : Option GoError) : Bool × Option GoError :=
  match err with
  | none => (true, none)
  | some e =>
    if errCodeConditionalCheckFailed != getErrCode e then (false, some e)
    else (false, none)

/-- storeItemIfAbsent (dynamomap.go) run against a faithful remote: the
conditional put with the hash-key-absent predicate, with its response mapped
by the storeItemIfAbsent error handling.  Returns the new remote state and the
(stored, err) result. -/
def storeItemIfAbsent (tc : TableConfig) (now : Int) (state : Option Item)
    (item : Item) : Option Item × (Bool × Option GoError) :=
  let (state', resp) := storePut tc now state item (some (storeIfAbsentCond tc))
  (state', storeIfAbsentOutcome resp)

/-- Condition built by storeItemIfVersion (dynamomap.go):
`expression.Name(d.VersionName).Equal(expression.Value(version))`. -/
def storeIfVersionCond (tc : TableConfig) (version : Int) : CondExpr :=
  .attrEquals tc.versionName (.n version)

/-- Error handling of storeItemIfVersion (dynamomap.go) applied to the put
response: a ConditionalCheckFailedException code means (false, nil); otherwise
the result is (err == nil, err). -/
def storeIfVersionOutcome (err : Option GoError) : Bool × Option GoError :=
  if errCodeConditionalCheckFailed == getErrCodeOpt err then (false, none)
  else (err.isNone, err)

/-- storeItemIfVersion (dynamomap.go) run against a faithful remote: the
conditional put with the version-equals predicate, with its response mapped by
the storeItemIfVersion error handling.  Returns the new remote state and the
(ok, err) result. -/
def storeItemIfVersion (tc : TableConfig) (now : Int) (state : Option Item)
    (item : Item) (version : Int) : Option Item × (Bool × Option GoError) :=
  let (state', resp) := storePut tc now state item (some (storeIfVersionCond tc version))
  (state', storeIfVersionOutcome resp)

/-- Remote responses observed by one run of loadOrStore: a GetItem response
(loadResp, the found record or its absence, or a transport error) or a
conditional PutItem response (putResp, nil or an error). -/
inductive RemoteEv where
  | loadResp (r : Except GoError (Option Item))
  | putResp (r : Option GoError)

/-- Error carried by a ConditionalCheckFailedException response. -/
def condFailedErr : GoError :=
  .aws errCodeConditionalCheckFailed "conditional check failed"

/-- loadOrStore (dynamomap.go), driven by the trace of remote responses it
consumes: `for { if result, loaded, err := d.load(item); loaded || err != nil
{ return result, loaded, err }; if stored, err := d.storeItemIfAbsent(item);
stored || err != nil { return item, !stored, err } }`.  A load that finds a
record returns it with loaded=true; a load error returns (nil, false, err);
otherwise the conditional put response is mapped by the storeItemIfAbsent
error handling and the loop returns (item, !stored, err) unless the put lost
the race (stored=false, err=nil), in which case it loops.  The result is none
when the trace is exhausted before the loop returns (the code would still be
looping), or malformed. -/
def loadOrStore (item : Item) : List RemoteEv → Option (Option Item × Bool × Option GoError)
  | .loadResp (.ok (some it)) :: _ => some (some it, true, none)
  | .loadResp (.error e) :: _ => some (none, false, some e)
  | .loadResp (.ok none) :: .putResp p :: rest =>
    let (stored, err) := storeIfAbsentOutcome p
    if stored || err.isSome then some (some item, !stored, err)
    else loadOrStore item rest
  | _ => none

/-- Trace of a run under pure sustained contention: every load finds nothing
and every conditional put answers ConditionalCheckFailedException, n times. -/
def contendedTrace : Nat → List RemoteEv
  | 0 => []
  | m + 1 => .loadResp (.ok none) :: .putResp (some condFailedErr) :: contendedTrace m

/-- KeyType of a key schema element (HASH or RANGE). -/
inductive KeyType where
  | hash
  | range
  deriving DecidableEq

/-- One element of the remote table's key schema. -/
structure KeySchemaElement where
  keyType : KeyType
  attributeName : String
  deriving DecidableEq

/-- Table description returned by a successful DescribeTable remote call. -/
structure TableDesc where
  tableStatus : String
  keySchema : List KeySchemaElement
  deriving DecidableEq

/-- dynamodb.TableStatusCreating. -/
def tableStatusCreating : String := "CREATING"

/-- dynamodb.TableStatusDeleting. -/
def tableStatusDeleting : String := "DELETING"

/-- dynamodb.TableStatusActive. -/
def tableStatusActive : String := "ACTIVE"

/-- creatingPollDuration (dynamomap.go): how long, in seconds, between checks
while waiting for a newly created table to become usable (a fixed interval,
`time.Second * 10`). -/
def creatingPollDurationSeconds : Int := 10

/-- Error returned by DescribeTable for a table being deleted. -/
def deletingErr : GoError := .plain "cannot use table being deleted"

/-- Key-name discovery of DescribeTable (dynamomap.go): for each key schema
element, a HASH element sets the hash key name and any other element sets the
range key name. -/
def setKeysFromSchema (tc : TableConfig) : List KeySchemaElement → TableConfig
  | [] => tc
  | ks :: rest =>
    match ks.keyType with
    | .hash => setKeysFromSchema { tc with hashKeyName := ks.attributeName } rest
    | .range => setKeysFromSchema { tc with rangeKeyName := ks.attributeName } rest

/-- DescribeTable (dynamomap.go), driven by the trace of remote describe
responses: a ResourceNotFoundException yields status "" with no error; any
other error is returned; a CREATING status sleeps the fixed poll interval and
retries on the rest of the trace; a DELETING status is returned with the
"cannot use table being deleted" error; any other status is returned with no
error, setting the key names from the schema when setKeys is true.  The
result carries the returned status, error and configuration plus the number
of fixed-interval sleeps performed; it is none when the trace is exhausted
while still polling (the code would still be waiting). -/
def describeTable (tc : TableConfig) (setKeys : Bool) :
    List (Except GoError TableDesc) → Option (String × Option GoError × TableConfig × Nat)
  | [] => none
  | .error e :: _ =>
    if errCodeResourceNotFound == getErrCode e then some ("", none, tc, 0)
    else some ("", some e, tc, 0)
  | .ok desc :: rest =>
    if desc.tableStatus = tableStatusCreating then
      match describeTable tc setKeys rest with
      | some (st, err, tc2, sleeps) => some (st, err, tc2, sleeps + 1)
      | none => none
    else if desc.tableStatus = tableStatusDeleting then
      some (desc.tableStatus, some deletingErr, tc, 0)
    else
      some (desc.tableStatus, none,
        (if setKeys then setKeysFromSchema tc desc.keySchema else tc), 0)

/-- One page of a Scan response: its items and whether LastEvaluatedKey was
set (more pages follow). -/
structure ScanPage where
  items : List Item
  more : Bool

/-- Delivery of one fetched page to the consumer (rangeSegment, dynamomap.go):
items are fed in order; on the first item for which the consumer returns
false the worker stops.  Returns the delivered items and whether the whole
page was delivered without the consumer returning false. -/
def deliverPage (consumer : Item → Bool) : List Item → List Item × Bool
  | [] => ([], true)
  | it :: rest =>
    if consumer it then
      let (ds, ok) := deliverPage consumer rest
      (it :: ds, ok)
    else ([it], false)

/-- rangeSegment (dynamomap.go) with a nil context (the serial path), driven
by the trace of Scan page responses: fetch a page (a fetch error is returned),
run the consumer on each record in the page (a false consumer result returns
errEarlyTermination), stop with a nil error when the page has no
LastEvaluatedKey, else continue with the next page.  Returns the items
delivered to the consumer and the function result (none when the trace is
exhausted before the loop returns). -/
def rangeSegmentSerial (consumer : Item → Bool) :
    List (Except GoError ScanPage) → List Item × Option (Option GoError)
  | [] => ([], none)
  | .error e :: _ => ([], some (some e))
  | .ok page :: rest =>
    let (ds, ok) := deliverPage consumer page.items
    if ok then
      if page.more then
        let (ds2, r) := rangeSegmentSerial consumer rest
        (ds ++ ds2, r)
      else (ds, some none)
    else (ds, some (some errEarlyTermination))

/-- RangeItems (dynamomap.go) in the serial branch (ScanConcurrency <= 1):
`return d.rangeSegment(nil, consumer, 0)` - the segment result is returned
directly, with no mapping of the early-termination signal. -/
def rangeItemsSerial (consumer : Item → Bool)
    (trace : List (Except GoError ScanPage)) : List Item × Option (Option GoError) :=
  rangeSegmentSerial consumer trace

/-- Modelled from the spec: `ExtractKey(item) -> Key` as the specification
describes it, failing with MissingKeyAttribute when the hash attribute is
absent from the item.  This definition follows the spec's words and exists
only to be compared with the source's ToKeyItem, which has no failure path. -/
def extractKeySpec (tc : TableConfig) (item : Item) : Except String Item :=
  if (item.lookup tc.hashKeyName).isNone then Except.error "MissingKeyAttribute"
  else Except.ok (tc.ToKeyItem item)

theorem Item.lookup_insert_self (item : Item) (a : String) (v : AttrVal) :
    (item.insert a v).lookup a = some v := by
  simp [Item.lookup, Item.insert]

theorem Item.lookup_insert_ne (item : Item) {a a2 : String} (h : a2 ≠ a)
    (v : AttrVal) : (item.insert a v).lookup a2 = item.lookup a2 := by
  simp [Item.lookup, Item.insert, Finmap.lookup_insert_of_ne _ h]

theorem Item.lookup_empty_attr (a : String) : (∅ : Item).lookup a = none := by
  simp [Item.lookup]
  exact Finmap.lookup_empty a

theorem Item.lookup_project (item : Item) (attrs : List String) (a : String) :
    (item.project attrs).lookup a = if a ∈ attrs then item.lookup a else none := by
  induction attrs with
  | nil => simp [Item.project, Item.lookup_empty_attr]
  | cons attr rest ih =>
    cases h : item.lookup attr with
    | some v =>
      simp only [Item.project, h]
      by_cases ha : a = attr
      · subst ha
        simp [Item.lookup_insert_self, h]
      · rw [Item.lookup_insert_ne _ ha, ih]
        simp [List.mem_cons, ha]
    | none =>
      simp only [Item.project, h]
      by_cases ha : a = attr
      · subst ha
        rw [ih]
        by_cases hm : a ∈ rest <;> simp [hm, h]
      · rw [ih]
        simp [List.mem_cons, ha]

theorem TableConfig.lookup_toKeyItem (tc : TableConfig) (item : Item) (a : String) :
    (tc.ToKeyItem item).lookup a =
      if a = tc.hashKeyName ∨ (tc.Ranged = true ∧ a = tc.rangeKeyName) then
        item.lookup a
      else none := by
  unfold TableConfig.ToKeyItem
  cases hr : tc.Ranged with
  | true =>
    rw [if_pos rfl]
    rw [Item.lookup_project]
    by_cases h1 : a = tc.hashKeyName <;> by_cases h2 : a = tc.rangeKeyName <;>
      simp [h1, h2]
  | false =>
    rw [if_neg (by simp)]
    rw [Item.lookup_project]
    by_cases h1 : a = tc.hashKeyName <;> simp [h1]

/-- Claim C2 counterexample: with hash key name "id" and an item carrying only
a "name" attribute, the key-extraction operation of the code (ToKeyItem) does
not fail at all: it returns the empty key item, while the claimed behaviour
(extractKeySpec, modelled from the spec) demands a MissingKeyAttribute
failure. -/
theorem toKeyItem_missing_hash_no_error :
    TableConfig.ToKeyItem { hashKeyName := "id" }
        ((∅ : Item).insert "name" (.s "bob")) = (∅ : Item)
    ∧ extractKeySpec { hashKeyName := "id" }
        ((∅ : Item).insert "name" (.s "bob")) = Except.error "MissingKeyAttribute" := by
  constructor
  · apply Finmap.ext_lookup
    intro x
    rw [show (Finmap.lookup x (TableConfig.ToKeyItem { hashKeyName := "id" }
        ((∅ : Item).insert "name" (.s "bob")))) = (TableConfig.ToKeyItem { hashKeyName := "id" }
        ((∅ : Item).insert "name" (.s "bob"))).lookup x from rfl]
    rw [TableConfig.lookup_toKeyItem]
    by_cases hx : x = "id"
    · subst hx
      rw [if_pos (Or.inl rfl)]
      rw [Item.lookup_insert_ne _ (by decide)]
      rw [Item.lookup_empty_attr]
      rfl
    · rw [if_neg (by simp [hx, TableConfig.Ranged])]
      exact (Item.lookup_empty_attr x).symm
  · rfl

/-- Claim C2 (amended): key extraction never fails; ToKeyItem is a total
projection that copies exactly the configured key attributes that are present
in the item, and when the configured hash-key attribute is absent it is
silently omitted from the resulting key item instead of producing a
MissingKeyAttribute error. -/
theorem toKeyItem_total_projection (tc : TableConfig) (item : Item) (a : String) :
    (tc.ToKeyItem item).lookup a =
      if a = tc.hashKeyName ∨ (tc.Ranged = true ∧ a = tc.rangeKeyName) then
        item.lookup a
      else none :=
  TableConfig.lookup_toKeyItem tc item a

/-- Claim C6: key extraction is idempotent: for every item containing the
configured hash-key attribute, projecting an item that is already a key
returns it unchanged: ToKeyItem (ToKeyItem item) = ToKeyItem item. -/
theorem toKeyItem_idempotent (tc : TableConfig) (item : Item)
    (h : (item.lookup tc.hashKeyName).isSome = true) :
    tc.ToKeyItem (tc.ToKeyItem item) = tc.ToKeyItem item := by
  apply Finmap.ext_lookup
  intro x
  have e1 : ∀ (it : Item) (y : String), Finmap.lookup y it = it.lookup y := fun _ _ => rfl
  rw [e1, e1, TableConfig.lookup_toKeyItem, TableConfig.lookup_toKeyItem]
  by_cases hc : x = tc.hashKeyName ∨ (tc.Ranged = true ∧ x = tc.rangeKeyName)
  · rw [if_pos hc, if_pos hc]
  · rw [if_neg hc, if_neg hc]

/-- Claim C6 witness: a concrete configuration and item containing the hash
attribute, at which the idempotence theorem applies. -/
theorem toKeyItem_idempotent_witness :
    ((((∅ : Item).insert "id" (.n 1)).lookup
        (TableConfig.hashKeyName { hashKeyName := "id" })).isSome = true)
    ∧ TableConfig.ToKeyItem { hashKeyName := "id" }
        (TableConfig.ToKeyItem { hashKeyName := "id" } ((∅ : Item).insert "id" (.n 1)))
      = TableConfig.ToKeyItem { hashKeyName := "id" } ((∅ : Item).insert "id" (.n 1)) :=
  ⟨by rw [show TableConfig.hashKeyName { hashKeyName := "id" } = "id" from rfl,
      Item.lookup_insert_self]; rfl, toKeyItem_idempotent _ _ (by
      rw [show TableConfig.hashKeyName { hashKeyName := "id" } = "id" from rfl,
        Item.lookup_insert_self]; rfl)⟩

/-- Sample configuration with hash key "id". -/
def cfgHashId : TableConfig := { hashKeyName := "id" }

/-- Sample configuration with hash key "id" and version attribute "ver". -/
def cfgVer : TableConfig := { hashKeyName := "id", versionName := "ver" }

/-- Sample item with id 1. -/
def itemId1 : Item := (∅ : Item).insert "id" (.n 1)

/-- Sample item with id 2. -/
def itemId2 : Item := (∅ : Item).insert "id" (.n 2)

/-- Sample item with id 1 and version 3. -/
def itemV3 : Item := ((∅ : Item).insert "id" (.n 1)).insert "ver" (.n 3)

/-- Sample transport error (a throttling response). -/
def throttleErr : GoError := .aws "ProvisionedThroughputExceededException" "slow down"

/-- Claim C4: StoreIfAbsent issues a conditional put whose predicate is that
the hash-key attribute does not exist; a conditional-check-failed answer gives
(stored=false, err=nil), a successful put gives (stored=true, err=nil) and
stores the item, and every other remote error is returned as err. -/
theorem storeItemIfAbsent_spec (tc : TableConfig) (now : Int)
    (state : Option Item) (item : Item) :
    storeIfAbsentCond tc = CondExpr.attrNotExists tc.hashKeyName
    ∧ (evalCond (storeIfAbsentCond tc) state = false →
        storeItemIfAbsent tc now state item = (state, false, none))
    ∧ (evalCond (storeIfAbsentCond tc) state = true →
        storeItemIfAbsent tc now state item = (some (stampTTL tc now item), true, none))
    ∧ (∀ msg : String,
        storeIfAbsentOutcome (some (.aws errCodeConditionalCheckFailed msg))
          = (false, none))
    ∧ (∀ e : GoError, getErrCode e ≠ errCodeConditionalCheckFailed →
        storeIfAbsentOutcome (some e) = (false, some e)) := by
  refine ⟨rfl, ?_, ?_, ?_, ?_⟩
  · intro h
    simp [storeItemIfAbsent, storePut, h, storeIfAbsentOutcome, getErrCode]
  · intro h
    simp [storeItemIfAbsent, storePut, h, storeIfAbsentOutcome]
  · intro msg
    simp [storeIfAbsentOutcome, getErrCode]
  · intro e he
    simp [storeIfAbsentOutcome, bne_iff_ne, Ne.symm he]

/-- Claim C4 witness: concrete runs at which the conditional branches of the
StoreIfAbsent theorem apply: a present record makes the put lose (stored
false, no error, record kept), an absent record makes it win, and a throttling
error is surfaced. -/
theorem storeItemIfAbsent_spec_witness :
    storeItemIfAbsent cfgHashId 0 (some itemId1) itemId2 = (some itemId1, false, none)
    ∧ storeItemIfAbsent cfgHashId 0 none itemId2
        = (some (stampTTL cfgHashId 0 itemId2), true, none)
    ∧ storeIfAbsentOutcome (some throttleErr) = (false, some throttleErr) :=
  ⟨(storeItemIfAbsent_spec cfgHashId 0 (some itemId1) itemId2).2.1 (by decide),
   (storeItemIfAbsent_spec cfgHashId 0 none itemId2).2.2.1 (by decide),
   (storeItemIfAbsent_spec cfgHashId 0 none itemId2).2.2.2.2 throttleErr (by decide)⟩

/-- Version match predicate: the stored record exists and its version
attribute currently equals the expected version. -/
def versionMatches (tc : TableConfig) (state : Option Item) (v : Int) : Prop :=
  ∃ it, state = some it ∧ it.lookup tc.versionName = some (.n v)

/-- Claim C5: StoreIfVersion(I, v) succeeds - returns (ok=true, err=nil) and
the record is overwritten with I - iff the stored record's version attribute
currently equals v; on a version mismatch it returns (false, nil) with the
record unmodified; any remote error other than a conditional-check failure is
returned as err.  Stated for configurations without a TTL duration, where the
written record is exactly the argument item. -/
theorem storeItemIfVersion_spec (tc : TableConfig) (now : Int)
    (state : Option Item) (item : Item) (v : Int)
    (httl : tc.timeToLiveDuration ≤ 0) :
    (storeItemIfVersion tc now state item v = (some item, true, none)
      ↔ versionMatches tc state v)
    ∧ (¬ versionMatches tc state v →
        storeItemIfVersion tc now state item v = (state, false, none))
    ∧ (∀ e : GoError, getErrCode e ≠ errCodeConditionalCheckFailed →
        storeIfVersionOutcome (some e) = (false, some e)) := by
  have hstamp : stampTTL tc now item = item := by
    rw [stampTTL, if_neg (by omega)]
  have hev : evalCond (storeIfVersionCond tc v) state = true ↔ versionMatches tc state v := by
    cases state with
    | none => simp [evalCond, storeIfVersionCond, versionMatches]
    | some it => simp [evalCond, storeIfVersionCond, versionMatches]
  have hfail : ∀ h : evalCond (storeIfVersionCond tc v) state = false,
      storeItemIfVersion tc now state item v = (state, false, none) := by
    intro h
    simp [storeItemIfVersion, storePut, h, storeIfVersionOutcome, getErrCodeOpt, getErrCode]
  refine ⟨⟨?_, ?_⟩, ?_, ?_⟩
  · intro h
    cases hc : evalCond (storeIfVersionCond tc v) state with
    | true => exact hev.mp hc
    | false =>
      rw [hfail hc] at h
      exact absurd (congrArg (fun r => r.2.1) h) (by simp)
  · intro hm
    have hc := hev.mpr hm
    simp [storeItemIfVersion, storePut, hc, storeIfVersionOutcome, getErrCodeOpt, hstamp,
      errCodeConditionalCheckFailed]
  · intro hm
    have hc : evalCond (storeIfVersionCond tc v) state = false := by
      cases hcc : evalCond (storeIfVersionCond tc v) state with
      | true => exact absurd (hev.mp hcc) hm
      | false => rfl
    exact hfail hc
  · intro e he
    simp [storeIfVersionOutcome, getErrCodeOpt, beq_iff_eq, Ne.symm he]

/-- Claim C5 witness: concrete runs of the StoreIfVersion theorem: a record at
version 3 is overwritten when expecting version 3, is kept when expecting
version 4, and a throttling error is surfaced. -/
theorem storeItemIfVersion_spec_witness :
    (storeItemIfVersion cfgVer 0 (some itemV3) itemId1 3 = (some itemId1, true, none)
      ↔ versionMatches cfgVer (some itemV3) 3)
    ∧ storeItemIfVersion cfgVer 0 (some itemV3) itemId1 4 = (some itemV3, false, none)
    ∧ storeIfVersionOutcome (some throttleErr) = (false, some throttleErr) :=
  ⟨(storeItemIfVersion_spec cfgVer 0 (some itemV3) itemId1 3 (by decide)).1,
   (storeItemIfVersion_spec cfgVer 0 (some itemV3) itemId1 4 (by decide)).2.1
     (by intro hm
         rcases hm with ⟨it, hit, hv⟩
         cases hit
         revert hv
         decide),
   (storeItemIfVersion_spec cfgVer 0 (some itemV3) itemId1 4 (by decide)).2.2
     throttleErr (by decide)⟩

/-- Claim C7: for every item written through Store (an unconditional put),
when the configured TTL duration is greater than 0 the item sent to the
remote table is the argument item with one numeric attribute added - named by
the configured TTL name, or "TTL" when that name is unset - holding
now + duration as epoch seconds, every other attribute unchanged; when the
duration is not positive the item is written exactly as given. -/
theorem store_ttl_stamp_spec (tc : TableConfig) (now : Int) (item : Item)
    (state : Option Item) :
    storePut tc now state item none = (some (stampTTL tc now item), none)
    ∧ (tc.timeToLiveDuration > 0 →
        (stampTTL tc now item).lookup (ttlAttributeName tc)
            = some (.n (now + tc.timeToLiveDuration))
        ∧ (∀ a, a ≠ ttlAttributeName tc →
            (stampTTL tc now item).lookup a = item.lookup a)
        ∧ (tc.timeToLiveName = "" → ttlAttributeName tc = DefaultTimeToLiveName))
    ∧ (¬ tc.timeToLiveDuration > 0 → stampTTL tc now item = item) := by
  refine ⟨rfl, ?_, ?_⟩
  · intro h
    refine ⟨?_, ?_, ?_⟩
    · rw [stampTTL, if_pos h, Item.lookup_insert_self]
    · intro a ha
      rw [stampTTL, if_pos h, Item.lookup_insert_ne _ ha]
    · intro hn
      rw [ttlAttributeName, if_pos hn]
  · intro h
    rw [stampTTL, if_neg h]

/-- Claim C7 witness: with a TTL duration of 60 seconds and no configured TTL
name, the item sent at time 1000 carries a "TTL" attribute holding 1060, the
"id" attribute is unchanged, and with the duration unset the item is sent
exactly as given. -/
theorem store_ttl_stamp_spec_witness :
    (stampTTL { timeToLiveDuration := 60 } 1000 itemId1).lookup
        (ttlAttributeName { timeToLiveDuration := 60 }) = some (.n 1060)
    ∧ (stampTTL { timeToLiveDuration := 60 } 1000 itemId1).lookup "id"
        = itemId1.lookup "id"
    ∧ stampTTL cfgHashId 1000 itemId1 = itemId1 :=
  ⟨((store_ttl_stamp_spec { timeToLiveDuration := 60 } 1000 itemId1 none).2.1
      (by decide)).1,
   ((store_ttl_stamp_spec { timeToLiveDuration := 60 } 1000 itemId1 none).2.1
      (by decide)).2.1 "id" (by decide),
   (store_ttl_stamp_spec cfgHashId 1000 itemId1 none).2.2 (by decide)⟩

theorem loadOrStore_success_cases (item : Item) (tr : List RemoteEv) :
    ∀ (v : Option Item) (b : Bool),
      loadOrStore item tr = some (v, b, none) →
      (b = true ∧ ∃ it, v = some it ∧ RemoteEv.loadResp (.ok (some it)) ∈ tr)
        ∨ (b = false ∧ v = some item) := by
  induction tr using loadOrStore.induct with
  | item => exact item
  | case1 it tail =>
    intro v b h
    rw [show loadOrStore item (.loadResp (.ok (some it)) :: tail)
        = some (some it, true, none) from rfl] at h
    simp only [Option.some.injEq, Prod.mk.injEq] at h
    obtain ⟨hv, hb, -⟩ := h
    exact Or.inl ⟨hb.symm, it, hv.symm, by simp⟩
  | case2 e tail =>
    intro v b h
    rw [show loadOrStore item (.loadResp (.error e) :: tail)
        = some (none, false, some e) from rfl] at h
    simp at h
  | case3 p rest stored err heq hcond =>
    intro v b h
    rw [show loadOrStore item (.loadResp (.ok none) :: .putResp p :: rest)
        = (let (s, er) := storeIfAbsentOutcome p
           if s || er.isSome then some (some item, !s, er)
           else loadOrStore item rest) from rfl, heq] at h
    simp only [hcond, if_true] at h
    simp only [Option.some.injEq, Prod.mk.injEq] at h
    obtain ⟨hv, hb, herr⟩ := h
    subst herr
    simp only [Option.isSome_none, Bool.or_false] at hcond
    subst hcond
    exact Or.inr ⟨hb.symm, hv.symm⟩
  | case4 p rest stored err heq hcond ih =>
    intro v b h
    rw [show loadOrStore item (.loadResp (.ok none) :: .putResp p :: rest)
        = (let (s, er) := storeIfAbsentOutcome p
           if s || er.isSome then some (some item, !s, er)
           else loadOrStore item rest) from rfl, heq] at h
    dsimp only at h
    rw [if_neg hcond] at h
    rcases ih v b h with ⟨hb, it, hv, hm⟩ | hr
    · exact Or.inl ⟨hb, it, hv, by simp [hm]⟩
    · exact Or.inr hr
  | case5 t h1 h2 h3 =>
    intro v b h
    exfalso
    cases t with
    | nil => exact absurd h (by rw [show loadOrStore item [] = none from rfl]; simp)
    | cons ev tail =>
      cases ev with
      | putResp p =>
        exact absurd h (by rw [show loadOrStore item (.putResp p :: tail) = none from rfl]; simp)
      | loadResp r =>
        cases r with
        | error e => exact h2 e tail rfl
        | ok o =>
          cases o with
          | some it => exact h1 it tail rfl
          | none =>
            cases tail with
            | nil =>
              exact absurd h (by rw [show loadOrStore item [.loadResp (.ok none)] = none from rfl]; simp)
            | cons ev2 tail2 =>
              cases ev2 with
              | putResp p => exact h3 p tail2 rfl
              | loadResp r2 =>
                exact absurd h (by rw [show loadOrStore item
                  (.loadResp (.ok none) :: .loadResp r2 :: tail2) = none from rfl]; simp)

/-- Claim C3: LoadOrStore follows the load/store-if-absent loop: a load that
finds a record returns it with loaded=true; a conditional put that stores
returns the input item with loaded=false; a put losing the race loops back to
the next load; under pure sustained contention the loop never returns; and an
error-free result is exactly one of {a load-found item with loaded=true, the
input item with loaded=false}. -/
theorem loadOrStore_loop_spec :
    (∀ (item : Item) (tr : List RemoteEv) (v : Option Item) (b : Bool),
        loadOrStore item tr = some (v, b, none) →
        (b = true ∧ ∃ it, v = some it ∧ RemoteEv.loadResp (.ok (some it)) ∈ tr)
          ∨ (b = false ∧ v = some item))
    ∧ (∀ (item it : Item) (rest : List RemoteEv),
        loadOrStore item (.loadResp (.ok (some it)) :: rest)
          = some (some it, true, none))
    ∧ (∀ (item : Item) (rest : List RemoteEv),
        loadOrStore item (.loadResp (.ok none) :: .putResp none :: rest)
          = some (some item, false, none))
    ∧ (∀ (item : Item) (rest : List RemoteEv),
        loadOrStore item (.loadResp (.ok none) :: .putResp (some condFailedErr) :: rest)
          = loadOrStore item rest)
    ∧ (∀ (item : Item) (n : Nat), loadOrStore item (contendedTrace n) = none) := by
  refine ⟨loadOrStore_success_cases, fun _ _ _ => rfl, fun _ _ => rfl, fun _ _ => rfl, ?_⟩
  intro item n
  induction n with
  | zero => rfl
  | succ m ih =>
    rw [show contendedTrace (m + 1)
        = .loadResp (.ok none) :: .putResp (some condFailedErr) :: contendedTrace m from rfl]
    rw [show loadOrStore item
        (.loadResp (.ok none) :: .putResp (some condFailedErr) :: contendedTrace m)
        = loadOrStore item (contendedTrace m) from rfl]
    exact ih

/-- Claim C3 witness: at a trace whose first load finds a record, the
success-dichotomy conjunct of the loop theorem applies and puts the result in
the loaded=true branch. -/
theorem loadOrStore_loop_spec_witness :
    (true = true ∧ ∃ it, (some itemId1 : Option Item) = some it
        ∧ RemoteEv.loadResp (.ok (some it)) ∈ [RemoteEv.loadResp (.ok (some itemId1))])
      ∨ (true = false ∧ (some itemId1 : Option Item) = some itemId2) :=
  loadOrStore_loop_spec.1 itemId2 [RemoteEv.loadResp (.ok (some itemId1))]
    (some itemId1) true rfl

/-- Claim C10: when the load finds no existing record and the conditional put
then fails with an error other than conditional-check-failed, loadOrStore
returns the argument item and loaded=true together with that non-nil error -
on an error outcome the loaded flag is true even though nothing was loaded. -/
theorem loadOrStore_put_error_loaded_true
    (item : Item) (e : GoError) (rest : List RemoteEv)
    (he : getErrCode e ≠ errCodeConditionalCheckFailed) :
    loadOrStore item (.loadResp (.ok none) :: .putResp (some e) :: rest)
      = some (some item, true, some e) := by
  have hout : storeIfAbsentOutcome (some e) = (false, some e) := by
    simp [storeIfAbsentOutcome, bne_iff_ne, Ne.symm he]
  rw [show loadOrStore item (.loadResp (.ok none) :: .putResp (some e) :: rest)
      = (let (s, er) := storeIfAbsentOutcome (some e)
         if s || er.isSome then some (some item, !s, er)
         else loadOrStore item rest) from rfl, hout]
  rfl

/-- Claim C10 witness: a concrete run where the load finds nothing and the put
answers with a throttling error: the item comes back with loaded=true and the
error. -/
theorem loadOrStore_put_error_loaded_true_witness :
    loadOrStore itemId1 [.loadResp (.ok none), .putResp (some throttleErr)]
      = some (some itemId1, true, some throttleErr) :=
  loadOrStore_put_error_loaded_true itemId1 throttleErr [] (by decide)

theorem describeTable_creating_step (tc : TableConfig) (sk : Bool)
    (d : TableDesc) (hd : d.tableStatus = tableStatusCreating)
    (tr : List (Except GoError TableDesc)) :
    describeTable tc sk (Except.ok d :: tr)
      = (describeTable tc sk tr).map fun r => (r.1, r.2.1, r.2.2.1, r.2.2.2 + 1) := by
  rw [show describeTable tc sk (Except.ok d :: tr)
      = (if d.tableStatus = tableStatusCreating then
          match describeTable tc sk tr with
          | some (st, err, tc2, sleeps) => some (st, err, tc2, sleeps + 1)
          | none => none
        else if d.tableStatus = tableStatusDeleting then
          some (d.tableStatus, some deletingErr, tc, 0)
        else
          some (d.tableStatus, none,
            (if sk then setKeysFromSchema tc d.keySchema else tc), 0)) from rfl]
  rw [if_pos hd]
  cases describeTable tc sk tr with
  | none => rfl
  | some r =>
    obtain ⟨st, err, tc2, sleeps⟩ := r
    rfl

/-- Claim C8: DescribeTable returns as soon as the remote status is not
Creating: any number of Creating responses is polled through, one
fixed-interval sleep each, with no iteration cap and no backoff; a Deleting
status is a terminal failure returned as an error; an absent table
(ResourceNotFoundException) yields an empty status with no error; any other
error is returned; any other, usable status is returned as success with no
further polling. -/
theorem describeTable_poll_spec :
    (∀ (tc : TableConfig) (sk : Bool) (pre : List TableDesc),
        (∀ p ∈ pre, p.tableStatus = tableStatusCreating) →
        ∀ (tr : List (Except GoError TableDesc)),
        describeTable tc sk (pre.map Except.ok ++ tr)
          = (describeTable tc sk tr).map
              fun r => (r.1, r.2.1, r.2.2.1, r.2.2.2 + pre.length))
    ∧ (∀ (tc : TableConfig) (sk : Bool) (d : TableDesc)
        (rest : List (Except GoError TableDesc)),
        d.tableStatus = tableStatusDeleting →
        describeTable tc sk (Except.ok d :: rest)
          = some (d.tableStatus, some deletingErr, tc, 0))
    ∧ (∀ (tc : TableConfig) (sk : Bool) (e : GoError)
        (rest : List (Except GoError TableDesc)),
        getErrCode e = errCodeResourceNotFound →
        describeTable tc sk (Except.error e :: rest) = some ("", none, tc, 0))
    ∧ (∀ (tc : TableConfig) (sk : Bool) (e : GoError)
        (rest : List (Except GoError TableDesc)),
        getErrCode e ≠ errCodeResourceNotFound →
        describeTable tc sk (Except.error e :: rest) = some ("", some e, tc, 0))
    ∧ (∀ (tc : TableConfig) (sk : Bool) (d : TableDesc)
        (rest : List (Except GoError TableDesc)),
        d.tableStatus ≠ tableStatusCreating → d.tableStatus ≠ tableStatusDeleting →
        describeTable tc sk (Except.ok d :: rest)
          = some (d.tableStatus, none,
              (if sk then setKeysFromSchema tc d.keySchema else tc), 0)) := by
  refine ⟨?_, ?_, ?_, ?_, ?_⟩
  · intro tc sk pre hpre
    induction pre with
    | nil =>
      intro tr
      simp only [List.map_nil, List.nil_append, List.length_nil]
      cases h : describeTable tc sk tr with
      | none => rfl
      | some r =>
        obtain ⟨st, err, tc2, sleeps⟩ := r
        simp
    | cons d pre ih =>
      intro tr
      rw [show ((d :: pre).map Except.ok ++ tr)
          = Except.ok d :: (pre.map Except.ok ++ tr) from rfl]
      rw [describeTable_creating_step tc sk d (hpre d (by simp))]
      rw [ih (fun p hp => hpre p (by simp [hp]))]
      cases describeTable tc sk tr with
      | none => rfl
      | some r =>
        obtain ⟨st, err, tc2, sleeps⟩ := r
        simp [Nat.add_assoc]
  · intro tc sk d rest hd
    rw [show describeTable tc sk (Except.ok d :: rest)
        = (if d.tableStatus = tableStatusCreating then
            match describeTable tc sk rest with
            | some (st, err, tc2, sleeps) => some (st, err, tc2, sleeps + 1)
            | none => none
          else if d.tableStatus = tableStatusDeleting then
            some (d.tableStatus, some deletingErr, tc, 0)
          else
            some (d.tableStatus, none,
              (if sk then setKeysFromSchema tc d.keySchema else tc), 0)) from rfl]
    rw [if_neg (by rw [hd]; decide), if_pos hd]
  · intro tc sk e rest he
    rw [show describeTable tc sk (Except.error e :: rest)
        = (if errCodeResourceNotFound == getErrCode e then some ("", none, tc, 0)
          else some ("", some e, tc, 0)) from rfl]
    rw [he]
    rfl
  · intro tc sk e rest he
    rw [show describeTable tc sk (Except.error e :: rest)
        = (if errCodeResourceNotFound == getErrCode e then some ("", none, tc, 0)
          else some ("", some e, tc, 0)) from rfl]
    rw [if_neg (by simp [beq_iff_eq, Ne.symm he])]
  · intro tc sk d rest h1 h2
    rw [show describeTable tc sk (Except.ok d :: rest)
        = (if d.tableStatus = tableStatusCreating then
            match describeTable tc sk rest with
            | some (st, err, tc2, sleeps) => some (st, err, tc2, sleeps + 1)
            | none => none
          else if d.tableStatus = tableStatusDeleting then
            some (d.tableStatus, some deletingErr, tc, 0)
          else
            some (d.tableStatus, none,
              (if sk then setKeysFromSchema tc d.keySchema else tc), 0)) from rfl]
    rw [if_neg h1, if_neg h2]

/-- Table description in CREATING status. -/
def creatingDesc : TableDesc := { tableStatus := "CREATING", keySchema := [] }

/-- Table description in ACTIVE status with a hash key named "id". -/
def activeDesc : TableDesc :=
  { tableStatus := "ACTIVE", keySchema := [{ keyType := .hash, attributeName := "id" }] }

/-- Table description in DELETING status. -/
def deletingDesc : TableDesc := { tableStatus := "DELETING", keySchema := [] }

/-- ResourceNotFoundException error. -/
def rnfErr : GoError := .aws "ResourceNotFoundException" "table not found"

/-- Claim C8 witness: concrete polling runs: three Creating responses are
polled through with three sleeps before the Active answer decides; a Deleting
response is a terminal error; an absent table yields an empty status with no
error; a throttling error is returned; an Active response returns at once and
discovers the hash key name. -/
theorem describeTable_poll_spec_witness :
    describeTable {} true (List.replicate 3 creatingDesc |>.map Except.ok
        |>.append [Except.ok activeDesc])
      = (describeTable {} true [Except.ok activeDesc]).map
          (fun r => (r.1, r.2.1, r.2.2.1, r.2.2.2 + 3))
    ∧ describeTable {} false [Except.ok deletingDesc]
        = some ("DELETING", some deletingErr, {}, 0)
    ∧ describeTable {} false [Except.error rnfErr] = some ("", none, {}, 0)
    ∧ describeTable {} false [Except.error throttleErr]
        = some ("", some throttleErr, {}, 0)
    ∧ describeTable {} true [Except.ok activeDesc]
        = some ("ACTIVE", none, { hashKeyName := "id" }, 0) :=
  ⟨describeTable_poll_spec.1 {} true (List.replicate 3 creatingDesc)
      (by intro p hp; simp [List.eq_of_mem_replicate hp]; rfl) [Except.ok activeDesc],
   describeTable_poll_spec.2.1 {} false deletingDesc [] rfl,
   describeTable_poll_spec.2.2.1 {} false rnfErr [] rfl,
   describeTable_poll_spec.2.2.2.1 {} false throttleErr [] (by decide),
   describeTable_poll_spec.2.2.2.2 {} true activeDesc [] (by decide) (by decide)⟩

/-- Claim C1 (code evaluated at the failing input): in serial mode
(ScanConcurrency <= 1), when the consumer returns false on a delivered item,
RangeItems returns the internal early-termination error errEarlyTermination
to the caller - not nil - because the serial branch returns the segment
result without mapping the signal. -/
theorem rangeItems_serial_returns_earlyTermination :
    rangeItemsSerial (fun _ => false) [Except.ok { items := [itemId1], more := false }]
      = ([itemId1], some (some errEarlyTermination))
    ∧ some errEarlyTermination ≠ (none : Option GoError) :=
  ⟨rfl, by decide⟩

/-- Claim C9 (code evaluated at the failing input): with fan-out degree 1 the
serial path runs; when the consumer returns false on the first item J of a
two-item page, no further item is fed to the consumer (0 <= 1 additional
items beyond J), but RangeItems returns the internal early-termination error
instead of the claimed nil. -/
theorem rangeItems_fanout_one_early_stop :
    TableConfig.scanConcurrency { hashKeyName := "id", scanConcurrency := 1 } ≤ 1
    ∧ rangeItemsSerial (fun _ => false)
        [Except.ok { items := [itemId1, itemId2], more := false }]
      = ([itemId1], some (some errEarlyTermination))
    ∧ (some (some errEarlyTermination) : Option (Option GoError)) ≠ some none :=
  ⟨by decide, rfl, by decide⟩

end Ddbmap
